import Mathlib

/-!
Verification development for the endocare-backend analytical engine.

The engine lives in the `find_triggers` and `predict_flareups` request
handlers (shared pipeline, repeated verbatim per handler).  This file
translates that pipeline into Lean:

* calendar dates (day granularity, the `"2006-01-02"` map keys) become `Int`
  day numbers; `AddDate(0,0,-1)` becomes subtracting 1;
* `float64` values that stay rational (severity scores, durations, deltas,
  sums, probabilities) become `ℚ`; values produced by `math.Sqrt`
  (standard deviations, the spike threshold) become `ℝ` via `Real.sqrt`;
* Go maps keyed by formatted date strings become association lists with
  explicit last-write-wins update (`upsert`) or per-key append (`appendAt`);
  Go map iteration order is unspecified, so every iteration over a map in
  the source is modelled by the canonical first-insertion order of the
  association list — all properties proved below (counts, lengths,
  membership, emptiness) are independent of that order;
* division in `ℚ`/`ℝ` is total with `x / 0 = 0`, whereas Go `float64`
  yields NaN for `0.0/0.0`; the single place this matters (an empty delta
  list) is treated explicitly where the unguarded division is analysed.
-/

namespace Endocare

/-- A row of the `sleep` table as the engine reads it (`id` is DB-generated
and never inspected; `date` is an integer day number). -/
structure Sleep where
  date : Int
  duration : ℚ
  quality : Int
  disruptions : String
  notes : String
deriving DecidableEq, Repr

/-- A row of the `diet` table. -/
structure Diet where
  meal : String
  date : Int
  items : List String
  notes : String
deriving DecidableEq, Repr

/-- A row of the `menstrual` table. -/
structure Menstrual where
  periodEvent : String
  date : Int
  flowLevel : String
  notes : String
deriving DecidableEq, Repr

/-- A row of the `symptoms` table. -/
structure Symptom where
  date : Int
  nausea : Int
  fatigue : Int
  pain : Int
  notes : String
deriving DecidableEq, Repr

/-- Severity score of one symptom record:
`float64(sym.Nausea + sym.Fatigue + sym.Pain) / 3.0`. -/
def severityOf (s : Symptom) : ℚ :=
  ((s.nausea + s.fatigue + s.pain : Int) : ℚ) / 3

/-- The `ScoredDay` struct of the handlers. -/
structure ScoredDay where
  date : Int
  score : ℚ
deriving DecidableEq, Repr

/-- The `scoredDays` slice: one `ScoredDay` per symptom record, in
storage order. -/
def scoredDaysOf (syms : List Symptom) : List ScoredDay :=
  syms.map (fun s => ⟨s.date, severityOf s⟩)

/-- One step of the date sort: insert into an already sorted list. -/
def insertSorted (x : ScoredDay) : List ScoredDay → List ScoredDay
  | [] => [x]
  | y :: ys => if x.date ≤ y.date then x :: y :: ys else y :: insertSorted x ys

/-- The `sort.Slice(scoredDays, ...Date.Before...)` call: sort ascending by
date.  Ties are broken arbitrarily in Go; this model keeps storage order
for equal dates, one of the permitted outcomes. -/
def sortByDate : List ScoredDay → List ScoredDay
  | [] => []
  | x :: xs => insertSorted x (sortByDate xs)

/-- The `diffs` loop: `diffs[i-1] = scoredDays[i].Score - scoredDays[i-1].Score`
for `i = 1 .. n-1`. -/
def diffsOf : List ScoredDay → List ℚ
  | a :: b :: rest => (b.score - a.score) :: diffsOf (b :: rest)
  | _ => []

/-- A running-sum loop (`sum += s`). -/
def qsum (l : List ℚ) : ℚ := l.foldl (· + ·) 0

/-- `sum / float64(len(l))` — the mean as the handlers compute it.  For the
empty list Go produces `0.0/0.0 = NaN`; in `ℚ` this is `0`. -/
def listMean (l : List ℚ) : ℚ := qsum l / l.length

/-- The `squaredDiffSum` loop: `acc += (s - m) * (s - m)`. -/
def sqDevSum (l : List ℚ) (m : ℚ) : ℚ :=
  l.foldl (fun acc s => acc + (s - m) * (s - m)) 0

/-- The diagnostic standard deviation of the severity scores:
`stdDev := 0.0; if len > 1 { stdDev = squaredDiffSum/float64(len-1);
stdDev = math.Sqrt(stdDev) }`. -/
noncomputable def stdDevOf (l : List ℚ) : ℝ :=
  if 1 < l.length then
    Real.sqrt ((sqDevSum l (listMean l) / ((l.length - 1 : ℕ) : ℚ) : ℚ) : ℝ)
  else 0

/-- The variance of the delta list: `sqSumDiff / float64(len(diffs))`,
with no emptiness guard in the source. -/
def varDiff (diffs : List ℚ) : ℚ :=
  sqDevSum diffs (listMean diffs) / diffs.length

/-- `stdDiff := math.Sqrt(sqSumDiff / float64(len(diffs)))`. -/
noncomputable def stdDiffOf (diffs : List ℚ) : ℝ :=
  Real.sqrt ((varDiff diffs : ℚ) : ℝ)

/-- `threshold := meanDiff + stdDiff`. -/
noncomputable def thresholdOfDiffs (diffs : List ℚ) : ℝ :=
  ((listMean diffs : ℚ) : ℝ) + stdDiffOf diffs

/-- The delta list of a symptom collection: score the records, sort by
date, take consecutive differences. -/
def symptomDiffs (syms : List Symptom) : List ℚ :=
  diffsOf (sortByDate (scoredDaysOf syms))

/-- The spike threshold of a symptom collection. -/
noncomputable def thresholdOf (syms : List Symptom) : ℝ :=
  thresholdOfDiffs (symptomDiffs syms)

/-- Last-write-wins insertion into a date-keyed association list —
the model of `m[k] = v` on a Go map. -/
def upsert {α : Type} : List (Int × α) → Int → α → List (Int × α)
  | [], k, v => [(k, v)]
  | (k', v') :: rest, k, v =>
      if k' = k then (k, v) :: rest else (k', v') :: upsert rest k v

/-- Lookup in an association list — the model of `v, ok := m[k]`. -/
def mlookup {κ α : Type} [DecidableEq κ] : List (κ × α) → κ → Option α
  | [], _ => none
  | (k', v) :: rest, k => if k' = k then some v else mlookup rest k

/-- Per-key append — the model of `m[k] = append(m[k], v)` on a Go map
whose values are slices. -/
def appendAt {κ α : Type} [DecidableEq κ] :
    List (κ × List α) → κ → α → List (κ × List α)
  | [], k, v => [(k, [v])]
  | (k', vs) :: rest, k, v =>
      if k' = k then (k', vs ++ [v]) :: rest else (k', vs) :: appendAt rest k v

/-- `m[k]++` on a Go `map[string]int` (missing keys read as `0`). -/
def bump : List (String × Nat) → String → List (String × Nat)
  | [], k => [(k, 1)]
  | (k', n) :: rest, k =>
      if k' = k then (k', n + 1) :: rest else (k', n) :: bump rest k

/-- The `sleepMap` build: `sleepMap[s.Date.Format(...)] = s`. -/
def sleepMapOf (l : List Sleep) : List (Int × Sleep) :=
  l.foldl (fun m s => upsert m s.date s) []

/-- The `dietMap` build: `dietMap[date] = append(dietMap[date], d)`. -/
def dietMapOf (l : List Diet) : List (Int × List Diet) :=
  l.foldl (fun m d => appendAt m d.date d) []

/-- The `menstrualMap` build. -/
def menstrualMapOf (l : List Menstrual) : List (Int × Menstrual) :=
  l.foldl (fun m x => upsert m x.date x) []

/-- The `recentSymptoms`-style map build (last-write-wins by date). -/
def symptomMapOf (l : List Symptom) : List (Int × Symptom) :=
  l.foldl (fun m s => upsert m s.date s) []

/-- The trigger aggregate of the handlers: the `triggerCounts` struct plus
the four `...Details` trackers (a detail is a `(date, severity)` pair;
the Go `TriggerDetail.Date` string is the day number here). -/
structure Triggers where
  lowSleepHours : Nat
  menstrualEvent : List (String × Nat)
  flowLevel : List (String × Nat)
  foodItems : List (String × Nat)
  lowSleepDetails : List (Int × ℚ)
  foodItemDetails : List (String × List (Int × ℚ))
  menstrualEventDetails : List (String × List (Int × ℚ))
  flowLevelDetails : List (String × List (Int × ℚ))
deriving DecidableEq, Repr

/-- The freshly initialised aggregate. -/
def Triggers.init : Triggers := ⟨0, [], [], [], [], [], [], []⟩

/-- The sleep block of the spike loop body: `if sleep, ok :=
sleepMap[dayBefore]; ok { if sleep.Duration < 6 { ... } }`. -/
def spikeSleepStep (sleepM : List (Int × Sleep)) (dayBefore : Int) (sev : ℚ)
    (acc : Triggers) : Triggers :=
  match mlookup sleepM dayBefore with
  | some s =>
      if s.duration < 6 then
        { acc with
          lowSleepHours := acc.lowSleepHours + 1
          lowSleepDetails := acc.lowSleepDetails ++ [(dayBefore, sev)] }
      else acc
  | none => acc

/-- The diet block of the spike loop body: every item of every diet record
on the antecedent day bumps its count and appends an example. -/
def spikeDietStep (dietM : List (Int × List Diet)) (dayBefore : Int) (sev : ℚ)
    (acc : Triggers) : Triggers :=
  match mlookup dietM dayBefore with
  | some ds =>
      ds.foldl
        (fun a d =>
          d.items.foldl
            (fun a it =>
              { a with
                foodItems := bump a.foodItems it
                foodItemDetails := appendAt a.foodItemDetails it (dayBefore, sev) })
            a)
        acc
  | none => acc

/-- The menstrual block of the spike loop body: one record increments both
the period-event and the flow-level counters. -/
def spikeMenstrualStep (menM : List (Int × Menstrual)) (dayBefore : Int)
    (sev : ℚ) (acc : Triggers) : Triggers :=
  match mlookup menM dayBefore with
  | some m =>
      { acc with
        menstrualEvent := bump acc.menstrualEvent m.periodEvent
        menstrualEventDetails :=
          appendAt acc.menstrualEventDetails m.periodEvent (dayBefore, sev)
        flowLevel := bump acc.flowLevel m.flowLevel
        flowLevelDetails :=
          appendAt acc.flowLevelDetails m.flowLevel (dayBefore, sev) }
  | none => acc

/-- Body of the `for spikeDateStr, severity := range spikeDays` loop:
inspect the day before one spike day and accumulate triggers, sleep block
first, then diet, then menstrual. -/
def applySpike (sleepM : List (Int × Sleep)) (dietM : List (Int × List Diet))
    (menM : List (Int × Menstrual)) (acc : Triggers) (spike : Int × ℚ) :
    Triggers :=
  spikeMenstrualStep menM (spike.1 - 1) spike.2
    (spikeDietStep dietM (spike.1 - 1) spike.2
      (spikeSleepStep sleepM (spike.1 - 1) spike.2 acc))

/-- The trigger correlator: fold `applySpike` over the spike-day map. -/
def correlate (spikes : List (Int × ℚ)) (sleepM : List (Int × Sleep))
    (dietM : List (Int × List Diet)) (menM : List (Int × Menstrual)) :
    Triggers :=
  spikes.foldl (applySpike sleepM dietM menM) .init

/-- The spike-day loop `for i := 1; i < len(scoredDays); i++` with
`if diff > threshold { spikeDays[dateStr] = score }`, accumulator style. -/
noncomputable def spikePass (t : ℝ) :
    List ScoredDay → List (Int × ℚ) → List (Int × ℚ)
  | a :: b :: rest, acc =>
      spikePass t (b :: rest)
        (if ((b.score - a.score : ℚ) : ℝ) > t then upsert acc b.date b.score
         else acc)
  | _, acc => acc

/-- The `spikeDays` map of a symptom collection. -/
noncomputable def spikeDaysOf (syms : List Symptom) : List (Int × ℚ) :=
  spikePass (thresholdOf syms) (sortByDate (scoredDaysOf syms)) []

/-- Result of the `find_triggers` handler: either the
`"No symptom data found."` message or the full trigger report. -/
inductive TriggersOutcome where
  | noData : TriggersOutcome
  | ok (threshold : ℝ) (mean : ℚ) (stdDev : ℝ) (trig : Triggers) :
      TriggersOutcome

/-- The `find_triggers` handler on already-fetched collections. -/
noncomputable def findTriggers (sleepData : List Sleep) (dietData : List Diet)
    (menstrualData : List Menstrual) (symptomsData : List Symptom) :
    TriggersOutcome :=
  let scores := symptomsData.map severityOf
  if scores.isEmpty then .noData
  else
    .ok (thresholdOf symptomsData) (listMean scores) (stdDevOf scores)
      (correlate (spikeDaysOf symptomsData) (sleepMapOf sleepData)
        (dietMapOf dietData) (menstrualMapOf menstrualData))

/-- The recent-window loop `for i := len(l)-3; i < len(l); i++ { if i >= 0
{ use l[i] } }`: the three candidate indices, negatives skipped. -/
def recentOf {α : Type} (l : List α) : List α :=
  [(l.length : Int) - 3, (l.length : Int) - 2, (l.length : Int) - 1].filterMap
    (fun i => if 0 ≤ i then l[i.toNat]? else none)

/-- One explanation entry of `recentFlareupPredictions`; each constructor
stands for one `fmt.Sprintf` format of the handler (`strings.Title`
capitalisation of the food item is not modelled — the item is kept raw). -/
inductive Expl where
  | lowSleep (date : Int)
  | consumed (item : String) (date : Int)
  | menstrualEvent (event : String) (date : Int)
  | flowLevel (level : String) (date : Int)
  | highSeverity (date : Int) (severity : ℚ)
deriving DecidableEq, Repr

/-- The date an explanation entry was generated for. -/
def Expl.dateOf : Expl → Int
  | .lowSleep d => d
  | .consumed _ d => d
  | .menstrualEvent _ d => d
  | .flowLevel _ d => d
  | .highSeverity d _ => d

/-- The explanation strings generated for one date of the recent-sleep
window (body of `for date := range recentSleep`). -/
noncomputable def explFor (sleepW : List (Int × Sleep))
    (dietW : List (Int × List Diet)) (menW : List (Int × Menstrual))
    (symW : List (Int × Symptom)) (mean : ℚ) (stdDev : ℝ) (d : Int) :
    List Expl :=
  (match mlookup sleepW d with
   | some s => if s.duration < 6 then [Expl.lowSleep d] else []
   | none => []) ++
  (match mlookup dietW d with
   | some ds => ds.flatMap (fun r => r.items.map (fun it => Expl.consumed it d))
   | none => []) ++
  (match mlookup menW d with
   | some m => [Expl.menstrualEvent m.periodEvent d, Expl.flowLevel m.flowLevel d]
   | none => []) ++
  (match mlookup symW d with
   | some s =>
       if ((severityOf s : ℚ) : ℝ) > ((mean : ℚ) : ℝ) + stdDev then
         [Expl.highSeverity d (severityOf s)]
       else []
   | none => [])

/-- All explanation entries: iterate over the keys of the recent-sleep
window. -/
noncomputable def predictionsOf (sleepW : List (Int × Sleep))
    (dietW : List (Int × List Diet)) (menW : List (Int × Menstrual))
    (symW : List (Int × Symptom)) (mean : ℚ) (stdDev : ℝ) : List Expl :=
  (sleepW.map Prod.fst).flatMap (explFor sleepW dietW menW symW mean stdDev)

/-- The explanation entries of `predict_flareups` on raw collections. -/
noncomputable def recentPredictionsOf (sleepData : List Sleep)
    (dietData : List Diet) (menstrualData : List Menstrual)
    (symptomsData : List Symptom) : List Expl :=
  predictionsOf (sleepMapOf (recentOf sleepData))
    (dietMapOf (recentOf dietData)) (menstrualMapOf (recentOf menstrualData))
    (symptomMapOf (recentOf symptomsData))
    (listMean (symptomsData.map severityOf))
    (stdDevOf (symptomsData.map severityOf))

/-- `totalTriggers`: food-item counts, plus low-sleep count, plus menstrual
event counts, plus flow-level counts. -/
def Triggers.total (t : Triggers) : Nat :=
  (t.foodItems.map Prod.snd).sum + t.lowSleepHours +
    (t.menstrualEvent.map Prod.snd).sum + (t.flowLevel.map Prod.snd).sum

/-- Sum of all trigger counts of the full-data correlator run inside
`predict_flareups`. -/
noncomputable def totalTriggersOf (sleepData : List Sleep)
    (dietData : List Diet) (menstrualData : List Menstrual)
    (symptomsData : List Symptom) : Nat :=
  (correlate (spikeDaysOf symptomsData) (sleepMapOf sleepData)
    (dietMapOf dietData) (menstrualMapOf menstrualData)).total

/-- `math.Round`: nearest integer, halves away from zero. -/
def goRound (x : ℚ) : Int :=
  if 0 ≤ x then ⌊x + 1 / 2⌋ else ⌈x - 1 / 2⌉

/-- `math.Round(x*100) / 100`: rounding to two decimal places. -/
def round2dp (x : ℚ) : ℚ := ((goRound (x * 100) : Int) : ℚ) / 100

/-- Result of the `predict_flareups` handler: the three message variants
(`"No symptom data found."`, `"No recent flareup predictions found."`,
`"No triggers found in recent data."`) or the numeric report. -/
inductive FlareupOutcome where
  | noSymptomData : FlareupOutcome
  | noPredictions : FlareupOutcome
  | noTriggers : FlareupOutcome
  | result (probability : ℚ) (predictions : List Expl) : FlareupOutcome

/-- The `predict_flareups` handler on already-fetched collections.  The
probability steps mirror the source: divide, cap with `math.Min` at 1,
scale to a percentage, round to two decimals. -/
noncomputable def predictFlareups (sleepData : List Sleep)
    (dietData : List Diet) (menstrualData : List Menstrual)
    (symptomsData : List Symptom) : FlareupOutcome :=
  if (symptomsData.map severityOf).isEmpty then .noSymptomData
  else
    let preds := recentPredictionsOf sleepData dietData menstrualData symptomsData
    if preds.isEmpty then .noPredictions
    else
      let total := totalTriggersOf sleepData dietData menstrualData symptomsData
      if total = 0 then .noTriggers
      else
        let p1 := (total : ℚ) / (preds.length : ℚ)
        let p2 := min p1 1
        let p3 := p2 * 100
        .result (round2dp p3) preds

/-! Spec-side definitions, written from the specification's own words, to
be compared with the source translations above. -/

/-- Spec-side mean of a value list, as a real number. -/
noncomputable def specMeanR (l : List ℚ) : ℝ :=
  (l.map (fun x => (x : ℝ))).sum / l.length

/-- Spec-side sample standard deviation: Bessel-corrected, divide by
`n - 1`, defined as `0` when `n ≤ 1`. -/
noncomputable def specSampleStd (l : List ℚ) : ℝ :=
  if 1 < l.length then
    Real.sqrt ((l.map (fun x => ((x : ℝ) - specMeanR l) ^ 2)).sum /
      ((l.length : ℝ) - 1))
  else 0

/-- Spec-side population standard deviation: divide by `n`, not `n - 1`. -/
noncomputable def specPopStd (l : List ℚ) : ℝ :=
  Real.sqrt ((l.map (fun x => ((x : ℝ) - specMeanR l) ^ 2)).sum / l.length)

/-- Spec-side probability formula:
`min(total_triggers / count(explanation_strings), 1.0) * 100`, rounded to
2 decimal places. -/
def specProbability (totalTriggers numPredictions : ℕ) : ℚ :=
  round2dp (min ((totalTriggers : ℚ) / (numPredictions : ℚ)) 1 * 100)

/-- Spec-side recent diet window under the claimed blanket last-write-wins
indexing: the last up-to-3 stored records indexed by date, a later
same-date record replacing the earlier one. -/
def dietWindowLWW (l : List Diet) : List (Int × Diet) :=
  (recentOf l).foldl (fun m d => upsert m d.date d) []

/-! The `src/main.go` variant of the `/insert_diet` handler (claim about
the persisted parameters).  RFC3339 date parsing is done by the `time`
library, modelled as an abstract parse function returning the day number
on success. -/

/-- The JSON request body bound by the handler. -/
structure DietRequest where
  meal : String
  date : String
  items : List String
  notes : String
deriving DecidableEq, Repr

/-- The `database.InsertDietParams` value handed to the query layer. -/
structure InsertDietParams where
  meal : String
  date : Int
  items : List String
  notes : String
deriving DecidableEq, Repr

/-- The `src/main.go` `/insert_diet` handler: reject when the date fails
to parse, otherwise build the insert parameters.  The `Notes` field is
populated from `dbURL` (the `DATABASE_URL` environment variable), not
from `req.Notes`. -/
def insertDietMain (parse : String → Option Int) (dbURL : String)
    (req : DietRequest) : Option InsertDietParams :=
  match parse req.date with
  | none => none
  | some d => some ⟨req.meal, d, req.items, dbURL⟩

/-! Concrete inputs used by witnesses and counterexamples. -/

/-- A symptom record with all three ratings equal to `v` on day `d`. -/
def symAt (d : Int) (v : Int) : Symptom := ⟨d, v, v, v, ""⟩

/-- Six-day symptom series: severity 2 on days 0–4, severity 7 on day 5.
Deltas `[0,0,0,0,5]`, delta mean 1, delta variance 4, threshold 3, so day
5 is the unique spike day. -/
def wSymptoms : List Symptom :=
  [symAt 0 2, symAt 1 2, symAt 2 2, symAt 3 2, symAt 4 2, symAt 5 7]

/-- One short-sleep record on day 4, the antecedent of the day-5 spike. -/
def wSleep : List Sleep := [⟨4, 5, 0, "", ""⟩]

/-- Two-day constant-severity series. -/
def cSymptoms : List Symptom := [symAt 0 2, symAt 1 2]

/-- A single symptom record. -/
def oneSym : Symptom := symAt 0 5

/-- Lifestyle records dated exactly on a spike day (day 5), none on day 4. -/
def spikeDaySleep : List Sleep := [⟨5, 5, 0, "", ""⟩]

/-- Diet record on the spike day itself. -/
def spikeDayDiet : List Diet := [⟨"lunch", 5, ["rice"], ""⟩]

/-- Menstrual record on the spike day itself. -/
def spikeDayMenstrual : List Menstrual := [⟨"start", 5, "light", ""⟩]

/-- Two diet records sharing day 0 with different items. -/
def twoDietSameDay : List Diet :=
  [⟨"m1", 0, ["a"], ""⟩, ⟨"m2", 0, ["b"], ""⟩]

/-- One short-sleep record on day 0 (recent-window witness input). -/
def w4Sleep : List Sleep := [⟨0, 5, 0, "", ""⟩]

/-- The food-item drift-freedom invariant: for every item, the stored
count equals the length of the stored example list, and the item is
present in one map exactly when it is present in the other. -/
def FoodInv (t : Triggers) : Prop :=
  ∀ it : String,
    (mlookup t.foodItems it).getD 0 =
      ((mlookup t.foodItemDetails it).getD []).length ∧
    (mlookup t.foodItems it = none ↔ mlookup t.foodItemDetails it = none)

/-! ## General lemmas about the loop translations -/

theorem foldl_add_from (l : List ℚ) : ∀ a : ℚ, l.foldl (· + ·) a = a + l.sum := by
  induction l with
  | nil => intro a; simp
  | cons x xs ih => intro a; simp only [List.foldl_cons, List.sum_cons, ih]; ring

theorem qsum_eq_sum (l : List ℚ) : qsum l = l.sum := by
  simpa [qsum] using foldl_add_from l 0

theorem sqdev_foldl_from (m : ℚ) (l : List ℚ) :
    ∀ a : ℚ, l.foldl (fun acc s => acc + (s - m) * (s - m)) a =
      a + (l.map (fun s => (s - m) * (s - m))).sum := by
  induction l with
  | nil => intro a; simp
  | cons x xs ih =>
      intro a
      simp only [List.foldl_cons, List.map_cons, List.sum_cons, ih]
      ring

theorem sqDevSum_eq (l : List ℚ) (m : ℚ) :
    sqDevSum l m = (l.map (fun s => (s - m) * (s - m))).sum := by
  simpa [sqDevSum] using sqdev_foldl_from m l 0

theorem listSum_castR (l : List ℚ) :
    ((l.sum : ℚ) : ℝ) = (l.map (fun x => (x : ℝ))).sum := by
  induction l with
  | nil => simp
  | cons x xs ih => simp [ih]

theorem listMean_castR (l : List ℚ) : ((listMean l : ℚ) : ℝ) = specMeanR l := by
  unfold listMean specMeanR
  rw [qsum_eq_sum, Rat.cast_div, listSum_castR, Rat.cast_natCast]

theorem sqDevSum_castR (l : List ℚ) (m : ℚ) :
    ((sqDevSum l m : ℚ) : ℝ) =
      (l.map (fun x => ((x : ℝ) - ((m : ℚ) : ℝ)) ^ 2)).sum := by
  rw [sqDevSum_eq]
  induction l with
  | nil => simp
  | cons x xs ih =>
      simp only [List.map_cons, List.sum_cons, Rat.cast_add]
      rw [ih]
      congr 1
      push_cast
      ring

theorem stdDev_is_sample (l : List ℚ) : stdDevOf l = specSampleStd l := by
  unfold stdDevOf specSampleStd
  split_ifs with h
  · congr 1
    rw [Rat.cast_div, sqDevSum_castR]
    simp only [listMean_castR]
    congr 1
    push_cast [Nat.cast_sub (by omega : 1 ≤ l.length)]
    ring
  · rfl

theorem threshold_is_popStd (diffs : List ℚ) :
    thresholdOfDiffs diffs = specMeanR diffs + specPopStd diffs := by
  unfold thresholdOfDiffs stdDiffOf varDiff specPopStd
  rw [listMean_castR]
  congr 2
  rw [Rat.cast_div, sqDevSum_castR]
  simp only [listMean_castR]
  push_cast
  ring

/-- C5: the diagnostic standard deviation of the severity values is the
sample (Bessel-corrected, divide by n−1, defined as 0 when n ≤ 1)
standard deviation, while the spike threshold equals the mean of the
consecutive deltas plus the population (divide by n, not n−1) standard
deviation of those deltas. -/
theorem C5_sample_diag_population_threshold (symptomsData : List Symptom) :
    stdDevOf (symptomsData.map severityOf) =
      specSampleStd (symptomsData.map severityOf) ∧
    thresholdOf symptomsData =
      specMeanR (symptomDiffs symptomsData) +
        specPopStd (symptomDiffs symptomsData) :=
  ⟨stdDev_is_sample _, threshold_is_popStd _⟩

/-! ## Sorting lemmas -/

theorem insertSorted_perm (x : ScoredDay) (l : List ScoredDay) :
    List.Perm (insertSorted x l) (x :: l) := by
  induction l with
  | nil => simp [insertSorted]
  | cons y ys ih =>
      unfold insertSorted
      split_ifs with h
      · exact List.Perm.refl _
      · exact (List.Perm.cons y ih).trans (List.Perm.swap x y ys)

theorem sortByDate_perm (l : List ScoredDay) : List.Perm (sortByDate l) l := by
  induction l with
  | nil => simp [sortByDate]
  | cons x xs ih => exact (insertSorted_perm x (sortByDate xs)).trans (ih.cons x)

theorem mem_insertSorted {a x : ScoredDay} {l : List ScoredDay} :
    a ∈ insertSorted x l ↔ a = x ∨ a ∈ l := by
  rw [(insertSorted_perm x l).mem_iff, List.mem_cons]

theorem pairwise_insertSorted (x : ScoredDay) {l : List ScoredDay}
    (h : l.Pairwise (fun a b => a.date ≤ b.date)) :
    (insertSorted x l).Pairwise (fun a b => a.date ≤ b.date) := by
  induction l with
  | nil => simp [insertSorted]
  | cons y ys ih =>
      rcases List.pairwise_cons.1 h with ⟨hy, hys⟩
      unfold insertSorted
      split_ifs with hle
      · refine List.pairwise_cons.2 ⟨?_, h⟩
        intro b hb
        rcases List.mem_cons.1 hb with rfl | hb
        · exact hle
        · exact le_trans hle (hy b hb)
      · refine List.pairwise_cons.2 ⟨?_, ih hys⟩
        intro b hb
        rcases mem_insertSorted.1 hb with rfl | hb
        · exact le_of_not_le hle
        · exact hy b hb

theorem pairwise_sortByDate (l : List ScoredDay) :
    (sortByDate l).Pairwise (fun a b => a.date ≤ b.date) := by
  induction l with
  | nil => simp [sortByDate]
  | cons x xs ih => exact pairwise_insertSorted x ih

theorem scoredDays_map_date (syms : List Symptom) :
    (scoredDaysOf syms).map ScoredDay.date = syms.map Symptom.date := by
  simp [scoredDaysOf, List.map_map, Function.comp]

/-! ## Constant-severity series (claim C6) -/

theorem score_const_sorted {syms : List Symptom} {c : ℚ}
    (h : ∀ s ∈ syms, severityOf s = c) :
    ∀ x ∈ sortByDate (scoredDaysOf syms), x.score = c := by
  intro x hx
  have hx' : x ∈ scoredDaysOf syms := (sortByDate_perm _).subset hx
  rcases List.mem_map.1 hx' with ⟨s, hs, rfl⟩
  exact h s hs

theorem diffsOf_zero {c : ℚ} :
    ∀ {l : List ScoredDay}, (∀ x ∈ l, x.score = c) → ∀ q ∈ diffsOf l, q = 0 := by
  intro l
  induction l with
  | nil => intro _ q hq; simp [diffsOf] at hq
  | cons a rest ih =>
      intro h q hq
      cases rest with
      | nil => simp [diffsOf] at hq
      | cons b rest' =>
          rw [diffsOf] at hq
          rcases List.mem_cons.1 hq with rfl | hq
          · rw [h a (by simp), h b (by simp)]
            ring
          · exact ih (fun x hx => h x (List.mem_cons_of_mem a hx)) q hq

theorem qsum_zero {l : List ℚ} (h : ∀ q ∈ l, q = 0) : qsum l = 0 := by
  rw [qsum_eq_sum]
  exact List.sum_eq_zero h

theorem spikePass_const {c : ℚ} {t : ℝ} (ht : 0 ≤ t) :
    ∀ (l : List ScoredDay), (∀ x ∈ l, x.score = c) →
      ∀ acc, spikePass t l acc = acc := by
  intro l
  induction l with
  | nil => intro _ acc; simp [spikePass]
  | cons a rest ih =>
      intro h acc
      cases rest with
      | nil => simp [spikePass]
      | cons b rest' =>
          simp only [spikePass]
          have hcond : ¬(((b.score - a.score : ℚ) : ℝ) > t) := by
            rw [h b (by simp), h a (by simp), sub_self]
            push_cast
            exact not_lt.2 ht
          rw [if_neg hcond]
          exact ih (fun x hx => h x (List.mem_cons_of_mem a hx)) acc

/-- C6: for every symptom series of at least 2 scored days with constant
severity, the delta mean, delta standard deviation and threshold are all
zero, and the spike-day map is empty (no delta satisfies the strict
comparison `delta > threshold`). -/
theorem C6_constant_series_no_spikes (symptomsData : List Symptom) (c : ℚ)
    (_hlen : 2 ≤ symptomsData.length)
    (hconst : ∀ s ∈ symptomsData, severityOf s = c) :
    listMean (symptomDiffs symptomsData) = 0 ∧
    stdDiffOf (symptomDiffs symptomsData) = 0 ∧
    thresholdOf symptomsData = 0 ∧
    spikeDaysOf symptomsData = [] := by
  have hall := score_const_sorted hconst
  have hdz : ∀ q ∈ symptomDiffs symptomsData, q = 0 := diffsOf_zero hall
  have hmean : listMean (symptomDiffs symptomsData) = 0 := by
    unfold listMean
    rw [qsum_zero hdz, zero_div]
  have hsq : sqDevSum (symptomDiffs symptomsData) 0 = 0 := by
    rw [sqDevSum_eq]
    refine List.sum_eq_zero ?_
    intro q hq
    rcases List.mem_map.1 hq with ⟨x, hx, rfl⟩
    rw [hdz x hx]
    ring
  have hvar : varDiff (symptomDiffs symptomsData) = 0 := by
    unfold varDiff
    rw [hmean, hsq, zero_div]
  have hstd : stdDiffOf (symptomDiffs symptomsData) = 0 := by
    unfold stdDiffOf
    rw [hvar]
    simp
  have hthr : thresholdOf symptomsData = 0 := by
    unfold thresholdOf thresholdOfDiffs
    rw [hmean, hstd]
    simp
  refine ⟨hmean, hstd, hthr, ?_⟩
  unfold spikeDaysOf
  rw [hthr]
  exact spikePass_const le_rfl _ hall []

/-- Witness for C6 at a concrete two-day constant series. -/
theorem C6_constant_series_no_spikes_witness :
    2 ≤ cSymptoms.length ∧ (∀ s ∈ cSymptoms, severityOf s = 2) ∧
    (listMean (symptomDiffs cSymptoms) = 0 ∧
     stdDiffOf (symptomDiffs cSymptoms) = 0 ∧
     thresholdOf cSymptoms = 0 ∧
     spikeDaysOf cSymptoms = []) :=
  ⟨by norm_num [cSymptoms],
   by
     intro s hs
     simp only [cSymptoms, List.mem_cons, List.not_mem_nil, or_false] at hs
     rcases hs with rfl | rfl <;> norm_num [severityOf, symAt],
   C6_constant_series_no_spikes cSymptoms 2 (by norm_num [cSymptoms])
     (by
       intro s hs
       simp only [cSymptoms, List.mem_cons, List.not_mem_nil, or_false] at hs
       rcases hs with rfl | rfl <;> norm_num [severityOf, symAt])⟩

/-- C1: on a single-record symptom collection the handler does not return
any distinct insufficient-series condition: the delta list is empty (so
`meanDiff = sumDiff/float64(len(diffs))` divides by zero, NaN in Go,
total division in this model) and the handler still produces a full
trigger report rather than a message. -/
theorem C1_singleton_divides_by_zero :
    (symptomDiffs [oneSym]).length = 0 ∧
    findTriggers [] [] [] [oneSym] ≠ TriggersOutcome.noData := by
  refine ⟨rfl, ?_⟩
  simp [findTriggers, oneSym, symAt]

/-! ## Spike keys come from tail positions (claim C10) -/

theorem mem_keys_upsert {α : Type} :
    ∀ {m : List (Int × α)} {k k' : Int} {v : α},
      k ∈ (upsert m k' v).map Prod.fst → k = k' ∨ k ∈ m.map Prod.fst := by
  intro m
  induction m with
  | nil =>
      intro k k' v h
      simpa [upsert] using h
  | cons p rest ih =>
      intro k k' v h
      obtain ⟨a, b⟩ := p
      rw [upsert] at h
      split_ifs at h with hak
      · rcases List.mem_cons.1 h with rfl | h
        · exact Or.inl rfl
        · exact Or.inr (List.mem_cons_of_mem _ h)
      · rcases List.mem_cons.1 h with rfl | h
        · exact Or.inr (List.mem_cons_self _ _)
        · rcases ih h with h' | h'
          · exact Or.inl h'
          · exact Or.inr (List.mem_cons_of_mem _ h')

theorem spikePass_keys {t : ℝ} :
    ∀ (l : List ScoredDay) (acc : List (Int × ℚ)) (k : Int),
      k ∈ (spikePass t l acc).map Prod.fst →
      k ∈ acc.map Prod.fst ∨ k ∈ l.tail.map ScoredDay.date := by
  intro l
  induction l with
  | nil =>
      intro acc k h
      exact Or.inl (by simpa [spikePass] using h)
  | cons a rest ih =>
      intro acc k h
      cases rest with
      | nil => exact Or.inl (by simpa [spikePass] using h)
      | cons b rest' =>
          simp only [spikePass] at h
          rcases ih _ k h with h' | h'
          · by_cases hc : ((b.score - a.score : ℚ) : ℝ) > t
            · rw [if_pos hc] at h'
              rcases mem_keys_upsert h' with rfl | h''
              · exact Or.inr (by simp)
              · exact Or.inl h''
            · rw [if_neg hc] at h'
              exact Or.inl h'
          · simp only [List.tail_cons] at h' ⊢
            exact Or.inr (List.mem_cons_of_mem _ h')

/-- C10: for pairwise distinct dates, the chronologically earliest date is
never a key of the spike-day map — spikes arise only at positions `i ≥ 1`
of the date-sorted scored-day sequence. -/
theorem C10_earliest_date_never_spike (symptomsData : List Symptom) (dmin : Int)
    (hnodup : (symptomsData.map Symptom.date).Nodup)
    (hmem : dmin ∈ symptomsData.map Symptom.date)
    (hle : ∀ d ∈ symptomsData.map Symptom.date, dmin ≤ d) :
    dmin ∉ (spikeDaysOf symptomsData).map Prod.fst := by
  intro hk
  rw [spikeDaysOf] at hk
  rcases spikePass_keys _ _ dmin hk with h | h
  · simp at h
  · have hperm : List.Perm
        ((sortByDate (scoredDaysOf symptomsData)).map ScoredDay.date)
        (symptomsData.map Symptom.date) := by
      rw [← scoredDays_map_date]
      exact (sortByDate_perm _).map _
    cases hsl : sortByDate (scoredDaysOf symptomsData) with
    | nil => rw [hsl] at h; simp at h
    | cons a rest =>
        rw [hsl] at h
        simp only [List.tail_cons] at h
        have hpw := pairwise_sortByDate (scoredDaysOf symptomsData)
        rw [hsl] at hpw
        have hle_a : ∀ y ∈ rest, a.date ≤ y.date :=
          fun y hy => (List.pairwise_cons.1 hpw).1 y hy
        rw [hsl] at hperm
        rcases List.mem_map.1 h with ⟨y, hy, rfl⟩
        have h1 : a.date ≤ y.date := hle_a y hy
        have h2 : y.date ≤ a.date := by
          refine hle a.date (hperm.subset ?_)
          simp
        have heq : a.date = y.date := le_antisymm h1 h2
        have hnodup' : ((a :: rest).map ScoredDay.date).Nodup :=
          hperm.nodup_iff.2 hnodup
        simp only [List.map_cons] at hnodup'
        rcases List.nodup_cons.1 hnodup' with ⟨hnot, _⟩
        exact hnot (heq ▸ List.mem_map_of_mem ScoredDay.date hy)

/-- Witness for C10 at a concrete singleton series. -/
theorem C10_earliest_date_never_spike_witness :
    ([symAt 0 2].map Symptom.date).Nodup ∧
    (0 : Int) ∈ [symAt 0 2].map Symptom.date ∧
    (0 : Int) ∉ (spikeDaysOf [symAt 0 2]).map Prod.fst :=
  ⟨by simp [symAt], by simp [symAt],
   C10_earliest_date_never_spike [symAt 0 2] 0 (by simp [symAt])
     (by simp [symAt])
     (by
       intro d hd
       simp [symAt] at hd
       simp [hd])⟩

/-! ## Association-list lemmas -/

theorem mlookup_upsert {α : Type} :
    ∀ (m : List (Int × α)) (k : Int) (v : α) (d : Int),
      mlookup (upsert m k v) d = if d = k then some v else mlookup m d := by
  intro m
  induction m with
  | nil =>
      intro k v d
      by_cases hd : d = k
      · subst hd; simp [upsert, mlookup]
      · simp [upsert, mlookup, hd, Ne.symm hd]
  | cons p rest ih =>
      intro k v d
      obtain ⟨a, b⟩ := p
      by_cases hak : a = k
      · subst hak
        by_cases hd : d = a
        · subst hd
          simp [upsert, mlookup]
        · simp [upsert, mlookup, hd, Ne.symm hd]
      · by_cases hd : d = k
        · subst hd
          simp [upsert, mlookup, hak, fun h : a = d => hak h, ih]
        · by_cases ha : a = d
          · subst ha
            simp [upsert, mlookup, hak, hd]
          · simp [upsert, mlookup, hak, ha, hd, ih]

theorem mlookup_appendAt {κ α : Type} [DecidableEq κ] :
    ∀ (m : List (κ × List α)) (k : κ) (v : α) (d : κ),
      mlookup (appendAt m k v) d =
        if d = k then some ((mlookup m k).getD [] ++ [v]) else mlookup m d := by
  intro m
  induction m with
  | nil =>
      intro k v d
      by_cases hd : d = k
      · subst hd; simp [appendAt, mlookup]
      · simp [appendAt, mlookup, hd, Ne.symm hd]
  | cons p rest ih =>
      intro k v d
      obtain ⟨a, bs⟩ := p
      by_cases hak : a = k
      · subst hak
        by_cases hd : d = a
        · subst hd
          simp [appendAt, mlookup]
        · simp [appendAt, mlookup, hd, Ne.symm hd]
      · by_cases hd : d = k
        · subst hd
          simp [appendAt, mlookup, hak, fun h : a = d => hak h, ih]
        · by_cases ha : a = d
          · subst ha
            simp [appendAt, mlookup, hak, hd]
          · simp [appendAt, mlookup, hak, ha, hd, ih]

theorem mlookup_bump :
    ∀ (c : List (String × Nat)) (k d : String),
      mlookup (bump c k) d =
        if d = k then some ((mlookup c k).getD 0 + 1) else mlookup c d := by
  intro c
  induction c with
  | nil =>
      intro k d
      by_cases hd : d = k
      · subst hd; simp [bump, mlookup]
      · simp [bump, mlookup, hd, Ne.symm hd]
  | cons p rest ih =>
      intro k d
      obtain ⟨a, n⟩ := p
      by_cases hak : a = k
      · subst hak
        by_cases hd : d = a
        · subst hd
          simp [bump, mlookup]
        · simp [bump, mlookup, hd, Ne.symm hd]
      · by_cases hd : d = k
        · subst hd
          simp [bump, mlookup, hak, fun h : a = d => hak h, ih]
        · by_cases ha : a = d
          · subst ha
            simp [bump, mlookup, hak, hd]
          · simp [bump, mlookup, hak, ha, hd, ih]

theorem upsertFold_lookup {α : Type} (dt : α → Int) :
    ∀ (xs : List α) (m : List (Int × α)) (d : Int),
      mlookup (xs.foldl (fun acc s => upsert acc (dt s) s) m) d =
        match (xs.filter (fun s => decide (dt s = d))).getLast? with
        | some r => some r
        | none => mlookup m d := by
  intro xs
  induction xs with
  | nil => intro m d; simp
  | cons x xs ih =>
      intro m d
      simp only [List.foldl_cons]
      rw [ih]
      by_cases hd : dt x = d
      · rw [List.filter_cons_of_pos (by simpa using hd)]
        cases hfl : xs.filter (fun s => decide (dt s = d)) with
        | nil => simp [mlookup_upsert, hd]
        | cons y ys =>
            cases hgl : (y :: ys).getLast? with
            | none => exact absurd (List.getLast?_eq_none_iff.1 hgl) (by simp)
            | some r => simp [List.getLast?_cons_cons, hgl]
      · rw [List.filter_cons_of_neg (by simpa using hd)]
        cases hfl : (xs.filter (fun s => decide (dt s = d))).getLast? with
        | some r => rfl
        | none => rw [mlookup_upsert, if_neg (fun h : d = dt x => hd h.symm)]

theorem appendAtFold_getD {α : Type} (dt : α → Int) :
    ∀ (xs : List α) (m : List (Int × List α)) (d : Int),
      (mlookup (xs.foldl (fun acc r => appendAt acc (dt r) r) m) d).getD [] =
        (mlookup m d).getD [] ++ xs.filter (fun r => decide (dt r = d)) := by
  intro xs
  induction xs with
  | nil => intro m d; simp
  | cons x xs ih =>
      intro m d
      simp only [List.foldl_cons]
      rw [ih, mlookup_appendAt]
      by_cases hd : dt x = d
      · rw [List.filter_cons_of_pos (by simpa using hd)]
        simp [hd]
      · rw [List.filter_cons_of_neg (by simpa using hd),
          if_neg (fun h : d = dt x => hd h.symm)]

theorem sleepMapOf_lookup_date {l : List Sleep} {d : Int} {s : Sleep}
    (h : mlookup (sleepMapOf l) d = some s) : ∃ r ∈ l, r.date = d := by
  unfold sleepMapOf at h
  rw [upsertFold_lookup Sleep.date] at h
  cases hfl : (l.filter (fun r => decide (r.date = d))).getLast? with
  | none =>
      simp only [hfl] at h
      simp [mlookup] at h
  | some r =>
      have hr := List.mem_of_getLast?_eq_some hfl
      rcases List.mem_filter.1 hr with ⟨hrl, hrd⟩
      exact ⟨r, hrl, by simpa using hrd⟩

theorem menstrualMapOf_lookup_date {l : List Menstrual} {d : Int} {s : Menstrual}
    (h : mlookup (menstrualMapOf l) d = some s) : ∃ r ∈ l, r.date = d := by
  unfold menstrualMapOf at h
  rw [upsertFold_lookup Menstrual.date] at h
  cases hfl : (l.filter (fun r => decide (r.date = d))).getLast? with
  | none =>
      simp only [hfl] at h
      simp [mlookup] at h
  | some r =>
      have hr := List.mem_of_getLast?_eq_some hfl
      rcases List.mem_filter.1 hr with ⟨hrl, hrd⟩
      exact ⟨r, hrl, by simpa using hrd⟩

theorem dietMapOf_lookup_sub {l : List Diet} {d : Int} {ds : List Diet}
    (h : mlookup (dietMapOf l) d = some ds) :
    ds = l.filter (fun r => decide (r.date = d)) := by
  have h2 : (mlookup (dietMapOf l) d).getD [] =
      l.filter (fun r => decide (r.date = d)) := by
    unfold dietMapOf
    simpa [mlookup] using appendAtFold_getD Diet.date l [] d
  rw [h] at h2
  simpa using h2

theorem foldl_fixed {β γ : Type} {f : β → γ → β} {l : List γ}
    (h : ∀ (a : β) (x : γ), x ∈ l → f a x = a) : ∀ a, l.foldl f a = a := by
  induction l with
  | nil => intro a; rfl
  | cons x xs ih =>
      intro a
      rw [List.foldl_cons, h a x (by simp)]
      exact ih (fun a y hy => h a y (List.mem_cons_of_mem x hy)) a

/-- C3: the trigger correlator inspects only the antecedent day
`spike date − 1`; when every lifestyle record is dated exactly on a spike
date and none on the day before a spike date, all four trigger counts are
zero. -/
theorem C3_only_antecedent_day (spikes : List (Int × ℚ)) (sleepData : List Sleep)
    (dietData : List Diet) (menstrualData : List Menstrual)
    (_hs1 : ∀ r ∈ sleepData, r.date ∈ spikes.map Prod.fst)
    (hs2 : ∀ r ∈ sleepData, ∀ s ∈ spikes, r.date ≠ s.1 - 1)
    (_hd1 : ∀ r ∈ dietData, r.date ∈ spikes.map Prod.fst)
    (hd2 : ∀ r ∈ dietData, ∀ s ∈ spikes, r.date ≠ s.1 - 1)
    (_hm1 : ∀ r ∈ menstrualData, r.date ∈ spikes.map Prod.fst)
    (hm2 : ∀ r ∈ menstrualData, ∀ s ∈ spikes, r.date ≠ s.1 - 1) :
    (correlate spikes (sleepMapOf sleepData) (dietMapOf dietData)
        (menstrualMapOf menstrualData)).lowSleepHours = 0 ∧
    (correlate spikes (sleepMapOf sleepData) (dietMapOf dietData)
        (menstrualMapOf menstrualData)).foodItems = [] ∧
    (correlate spikes (sleepMapOf sleepData) (dietMapOf dietData)
        (menstrualMapOf menstrualData)).menstrualEvent = [] ∧
    (correlate spikes (sleepMapOf sleepData) (dietMapOf dietData)
        (menstrualMapOf menstrualData)).flowLevel = [] := by
  have key : correlate spikes (sleepMapOf sleepData) (dietMapOf dietData)
      (menstrualMapOf menstrualData) = Triggers.init := by
    unfold correlate
    apply foldl_fixed
    intro a sp hsp
    have hsl : mlookup (sleepMapOf sleepData) (sp.1 - 1) = none := by
      cases hq : mlookup (sleepMapOf sleepData) (sp.1 - 1) with
      | none => rfl
      | some s =>
          rcases sleepMapOf_lookup_date hq with ⟨r, hr, hrd⟩
          exact absurd hrd (hs2 r hr sp hsp)
    have hml : mlookup (menstrualMapOf menstrualData) (sp.1 - 1) = none := by
      cases hq : mlookup (menstrualMapOf menstrualData) (sp.1 - 1) with
      | none => rfl
      | some s =>
          rcases menstrualMapOf_lookup_date hq with ⟨r, hr, hrd⟩
          exact absurd hrd (hm2 r hr sp hsp)
    have e1 : spikeSleepStep (sleepMapOf sleepData) (sp.1 - 1) sp.2 a = a := by
      simp [spikeSleepStep, hsl]
    have e2 : ∀ b, spikeDietStep (dietMapOf dietData) (sp.1 - 1) sp.2 b = b := by
      intro b
      unfold spikeDietStep
      cases hq : mlookup (dietMapOf dietData) (sp.1 - 1) with
      | none => rfl
      | some ds =>
          have hds : ds = [] := by
            rw [dietMapOf_lookup_sub hq]
            rw [List.filter_eq_nil_iff]
            intro r hr
            simp [hd2 r hr sp hsp]
          rw [hds]
          rfl
    have e3 : ∀ b, spikeMenstrualStep (menstrualMapOf menstrualData)
        (sp.1 - 1) sp.2 b = b := by
      intro b
      simp [spikeMenstrualStep, hml]
    rw [applySpike, e1, e2, e3]
  rw [key]
  simp [Triggers.init]

/-- Witness for C3 at a concrete spike-dated input. -/
theorem C3_only_antecedent_day_witness :
    (correlate [((5 : Int), (7 : ℚ))] (sleepMapOf spikeDaySleep)
        (dietMapOf spikeDayDiet) (menstrualMapOf spikeDayMenstrual)).lowSleepHours = 0 ∧
    (correlate [((5 : Int), (7 : ℚ))] (sleepMapOf spikeDaySleep)
        (dietMapOf spikeDayDiet) (menstrualMapOf spikeDayMenstrual)).foodItems = [] ∧
    (correlate [((5 : Int), (7 : ℚ))] (sleepMapOf spikeDaySleep)
        (dietMapOf spikeDayDiet) (menstrualMapOf spikeDayMenstrual)).menstrualEvent = [] ∧
    (correlate [((5 : Int), (7 : ℚ))] (sleepMapOf spikeDaySleep)
        (dietMapOf spikeDayDiet) (menstrualMapOf spikeDayMenstrual)).flowLevel = [] :=
  C3_only_antecedent_day [((5 : Int), (7 : ℚ))] spikeDaySleep spikeDayDiet
    spikeDayMenstrual (by decide) (by decide) (by decide) (by decide)
    (by decide) (by decide)

/-! ## Food-count drift freedom (claim C8) -/

theorem foodInv_init : FoodInv Triggers.init := by
  intro it
  simp [Triggers.init, mlookup]

theorem foodInv_pair {c : List (String × Nat)}
    {dm : List (String × List (Int × ℚ))}
    (h1 : ∀ it, (mlookup c it).getD 0 = ((mlookup dm it).getD []).length ∧
      (mlookup c it = none ↔ mlookup dm it = none))
    (k : String) (x : Int × ℚ) :
    ∀ it, (mlookup (bump c k) it).getD 0 =
        ((mlookup (appendAt dm k x) it).getD []).length ∧
      (mlookup (bump c k) it = none ↔ mlookup (appendAt dm k x) it = none) := by
  intro it
  rw [mlookup_bump, mlookup_appendAt]
  by_cases hik : it = k
  · rw [if_pos hik, if_pos hik]
    refine ⟨?_, by simp⟩
    simp [(h1 k).1]
  · rw [if_neg hik, if_neg hik]
    exact h1 it

theorem foodInv_itemsFold (p : Int × ℚ) :
    ∀ (items : List String) (a : Triggers), FoodInv a →
      FoodInv (items.foldl
        (fun a it =>
          { a with
            foodItems := bump a.foodItems it
            foodItemDetails := appendAt a.foodItemDetails it p })
        a) := by
  intro items
  induction items with
  | nil => intro a h; exact h
  | cons i is ih =>
      intro a h
      rw [List.foldl_cons]
      exact ih _ (fun it => foodInv_pair h i p it)

theorem foodInv_dietRecordsFold (p : Int × ℚ) :
    ∀ (ds : List Diet) (a : Triggers), FoodInv a →
      FoodInv (ds.foldl
        (fun a d =>
          d.items.foldl
            (fun a it =>
              { a with
                foodItems := bump a.foodItems it
                foodItemDetails := appendAt a.foodItemDetails it p })
            a)
        a) := by
  intro ds
  induction ds with
  | nil => intro a h; exact h
  | cons d ds ih =>
      intro a h
      rw [List.foldl_cons]
      exact ih _ (foodInv_itemsFold p d.items a h)

theorem foodInv_sleepStep (sleepM : List (Int × Sleep)) (db : Int) (sev : ℚ)
    {a : Triggers} (h : FoodInv a) : FoodInv (spikeSleepStep sleepM db sev a) := by
  unfold spikeSleepStep
  cases mlookup sleepM db with
  | none => exact h
  | some s =>
      dsimp only
      by_cases hs : s.duration < 6
      · rw [if_pos hs]
        exact fun it => h it
      · rw [if_neg hs]
        exact h

theorem foodInv_dietStep (dietM : List (Int × List Diet)) (db : Int) (sev : ℚ)
    {a : Triggers} (h : FoodInv a) : FoodInv (spikeDietStep dietM db sev a) := by
  unfold spikeDietStep
  cases mlookup dietM db with
  | none => exact h
  | some ds => exact foodInv_dietRecordsFold (db, sev) ds a h

theorem foodInv_menstrualStep (menM : List (Int × Menstrual)) (db : Int)
    (sev : ℚ) {a : Triggers} (h : FoodInv a) :
    FoodInv (spikeMenstrualStep menM db sev a) := by
  unfold spikeMenstrualStep
  cases mlookup menM db with
  | none => exact h
  | some m => exact fun it => h it

theorem foodInv_applySpike (sleepM : List (Int × Sleep))
    (dietM : List (Int × List Diet)) (menM : List (Int × Menstrual))
    (sp : Int × ℚ) {a : Triggers} (h : FoodInv a) :
    FoodInv (applySpike sleepM dietM menM a sp) := by
  unfold applySpike
  exact foodInv_menstrualStep _ _ _
    (foodInv_dietStep _ _ _ (foodInv_sleepStep _ _ _ h))

theorem foodInv_foldl (sleepM : List (Int × Sleep))
    (dietM : List (Int × List Diet)) (menM : List (Int × Menstrual)) :
    ∀ (spikes : List (Int × ℚ)) (a : Triggers), FoodInv a →
      FoodInv (spikes.foldl (applySpike sleepM dietM menM) a) := by
  intro spikes
  induction spikes with
  | nil => intro a h; exact h
  | cons sp sps ih =>
      intro a h
      rw [List.foldl_cons]
      exact ih _ (foodInv_applySpike _ _ _ sp h)

/-- C8: for every input and every food item, the count stored in the
food-item counter map equals the length of that item's example list in
the food-item details map, and an item is present in one exactly when it
is present in the other — the two structures never drift apart. -/
theorem C8_food_counts_match_examples (sleepData : List Sleep)
    (dietData : List Diet) (menstrualData : List Menstrual)
    (symptomsData : List Symptom) :
    FoodInv (correlate (spikeDaysOf symptomsData) (sleepMapOf sleepData)
      (dietMapOf dietData) (menstrualMapOf menstrualData)) := by
  unfold correlate
  exact foodInv_foldl _ _ _ _ _ foodInv_init

/-! ## Recent windows and explanation gating (claim C4) -/

theorem getElem?_cons_intShift {α : Type} (a : α) (l : List α) (i : Int) (hi : 0 ≤ i) :
    (a :: l)[(i + 1).toNat]? = l[i.toNat]? := by
  have h : (i + 1).toNat = i.toNat + 1 := by omega
  rw [h, List.getElem?_cons_succ]

theorem recentOf_cons_big {α : Type} (a : α) (l : List α) (h : 3 ≤ l.length) :
    recentOf (a :: l) = recentOf l := by
  have e1 : ((a :: l).length : Int) - 3 = ((l.length : Int) - 3) + 1 := by
    simp only [List.length_cons]
    push_cast
    ring
  have e2 : ((a :: l).length : Int) - 2 = ((l.length : Int) - 2) + 1 := by
    simp only [List.length_cons]
    push_cast
    ring
  have e3 : ((a :: l).length : Int) - 1 = ((l.length : Int) - 1) + 1 := by
    simp only [List.length_cons]
    push_cast
    ring
  have p1 : (0 : Int) ≤ (l.length : Int) - 3 := by omega
  have p2 : (0 : Int) ≤ (l.length : Int) - 2 := by omega
  have p3 : (0 : Int) ≤ (l.length : Int) - 1 := by omega
  unfold recentOf
  rw [e1, e2, e3]
  simp only [List.filterMap_cons, List.filterMap_nil]
  rw [if_pos (by omega : (0 : Int) ≤ (l.length : Int) - 3 + 1),
    if_pos (by omega : (0 : Int) ≤ (l.length : Int) - 2 + 1),
    if_pos (by omega : (0 : Int) ≤ (l.length : Int) - 1 + 1),
    if_pos p1, if_pos p2, if_pos p3,
    getElem?_cons_intShift a l _ p1, getElem?_cons_intShift a l _ p2,
    getElem?_cons_intShift a l _ p3]

theorem drop_cons_big {α : Type} (a : α) (l : List α) (h : 3 ≤ l.length) :
    (a :: l).drop ((a :: l).length - 3) = l.drop (l.length - 3) := by
  have e : (a :: l).length - 3 = (l.length - 3) + 1 := by
    simp only [List.length_cons]
    omega
  rw [e, List.drop_succ_cons]

theorem recentOf_eq_drop {α : Type} :
    ∀ (l : List α), recentOf l = l.drop (l.length - 3) := by
  intro l
  induction l with
  | nil => rfl
  | cons a l ih =>
      by_cases h : 3 ≤ l.length
      · rw [recentOf_cons_big a l h, drop_cons_big a l h, ih]
      · rcases l with _ | ⟨x, _ | ⟨y, _ | ⟨z, rest⟩⟩⟩
        · norm_num [recentOf, List.filterMap_cons]
        · norm_num [recentOf, List.filterMap_cons]
        · norm_num [recentOf, List.filterMap_cons]
          rfl
        · exfalso
          simp [List.length_cons] at h

theorem sleepWindow_lww (l : List Sleep) (d : Int) :
    mlookup (sleepMapOf l) d =
      (l.filter (fun s => decide (s.date = d))).getLast? := by
  unfold sleepMapOf
  rw [upsertFold_lookup Sleep.date]
  cases hfl : (l.filter (fun s => decide (s.date = d))).getLast? with
  | none => rfl
  | some r => rfl

theorem dietWindow_getD (l : List Diet) (d : Int) :
    (mlookup (dietMapOf l) d).getD [] =
      l.filter (fun r => decide (r.date = d)) := by
  unfold dietMapOf
  simpa [mlookup] using appendAtFold_getD Diet.date l [] d

theorem menstrualWindow_lww (l : List Menstrual) (d : Int) :
    mlookup (menstrualMapOf l) d =
      (l.filter (fun r => decide (r.date = d))).getLast? := by
  unfold menstrualMapOf
  rw [upsertFold_lookup Menstrual.date]
  cases hfl : (l.filter (fun r => decide (r.date = d))).getLast? with
  | none => rfl
  | some r => rfl

theorem symptomWindow_lww (l : List Symptom) (d : Int) :
    mlookup (symptomMapOf l) d =
      (l.filter (fun r => decide (r.date = d))).getLast? := by
  unfold symptomMapOf
  rw [upsertFold_lookup Symptom.date]
  cases hfl : (l.filter (fun r => decide (r.date = d))).getLast? with
  | none => rfl
  | some r => rfl

theorem explFor_dateOf {sleepW : List (Int × Sleep)}
    {dietW : List (Int × List Diet)} {menW : List (Int × Menstrual)}
    {symW : List (Int × Symptom)} {mean : ℚ} {stdDev : ℝ} {d : Int} {e : Expl}
    (h : e ∈ explFor sleepW dietW menW symW mean stdDev d) : e.dateOf = d := by
  unfold explFor at h
  rcases List.mem_append.1 h with h | h
  · rcases List.mem_append.1 h with h | h
    · rcases List.mem_append.1 h with h | h
      · cases hq : mlookup sleepW d with
        | none => rw [hq] at h; simp at h
        | some s =>
            rw [hq] at h
            dsimp only at h
            split_ifs at h
            · simp only [List.mem_singleton] at h
              subst h
              rfl
            · simp at h
      · cases hq : mlookup dietW d with
        | none => rw [hq] at h; simp at h
        | some ds =>
            rw [hq] at h
            dsimp only at h
            rcases List.mem_flatMap.1 h with ⟨r, _, hi⟩
            rcases List.mem_map.1 hi with ⟨it, _, rfl⟩
            rfl
    · cases hq : mlookup menW d with
      | none => rw [hq] at h; simp at h
      | some m =>
          rw [hq] at h
          dsimp only at h
          rcases List.mem_cons.1 h with rfl | h
          · rfl
          · rcases List.mem_cons.1 h with rfl | h
            · rfl
            · simp at h
  · cases hq : mlookup symW d with
    | none => rw [hq] at h; simp at h
    | some s =>
        rw [hq] at h
        dsimp only at h
        split_ifs at h
        · simp only [List.mem_singleton] at h
          subst h
          rfl
        · simp at h

theorem predictionsOf_dates {sleepW : List (Int × Sleep)}
    {dietW : List (Int × List Diet)} {menW : List (Int × Menstrual)}
    {symW : List (Int × Symptom)} {mean : ℚ} {stdDev : ℝ} {e : Expl}
    (h : e ∈ predictionsOf sleepW dietW menW symW mean stdDev) :
    e.dateOf ∈ sleepW.map Prod.fst := by
  unfold predictionsOf at h
  rcases List.mem_flatMap.1 h with ⟨d, hd, he⟩
  rw [explFor_dateOf he]
  exact hd

/-- C4 (amended): each recent window is the last up-to-3 records in
storage order; the sleep (and likewise menstrual/symptom) window is
indexed by date last-write-wins, while the diet window is one-to-many and
keeps every same-date record; explanation strings are generated only for
dates appearing in the recent-sleep window, so a recent diet, menstrual,
or symptom record whose date matches no recent-sleep date produces no
explanation string. -/
theorem C4_recent_windows_and_sleep_gating :
    (∀ (α : Type) (l : List α), recentOf l = l.drop (l.length - 3)) ∧
    (∀ (l : List Sleep) (d : Int),
      mlookup (sleepMapOf (recentOf l)) d =
        ((recentOf l).filter (fun s => decide (s.date = d))).getLast?) ∧
    (∀ (l : List Menstrual) (d : Int),
      mlookup (menstrualMapOf (recentOf l)) d =
        ((recentOf l).filter (fun r => decide (r.date = d))).getLast?) ∧
    (∀ (l : List Symptom) (d : Int),
      mlookup (symptomMapOf (recentOf l)) d =
        ((recentOf l).filter (fun r => decide (r.date = d))).getLast?) ∧
    (∀ (l : List Diet) (d : Int),
      (mlookup (dietMapOf (recentOf l)) d).getD [] =
        (recentOf l).filter (fun r => decide (r.date = d))) ∧
    (∀ (sleepData : List Sleep) (dietData : List Diet)
      (menstrualData : List Menstrual) (symptomsData : List Symptom) (e : Expl),
      e ∈ recentPredictionsOf sleepData dietData menstrualData symptomsData →
      e.dateOf ∈ (sleepMapOf (recentOf sleepData)).map Prod.fst) :=
  ⟨fun _ l => recentOf_eq_drop l,
   fun l d => sleepWindow_lww (recentOf l) d,
   fun l d => menstrualWindow_lww (recentOf l) d,
   fun l d => symptomWindow_lww (recentOf l) d,
   fun l d => dietWindow_getD (recentOf l) d,
   fun _ _ _ _ _ h => predictionsOf_dates h⟩

/-- Counterexample to C4 as stated: with two same-date diet records in
the recent window, the code's diet window keeps both records, so it is
not the last-write-wins index the claim describes. -/
theorem C4_diet_window_not_lww :
    dietMapOf (recentOf twoDietSameDay) ≠
      (dietWindowLWW twoDietSameDay).map (fun p => (p.1, [p.2])) := by
  decide

/-- Witness for C4 (amended) at a concrete input with one short-sleep
record. -/
theorem C4_recent_windows_and_sleep_gating_witness :
    Expl.lowSleep 0 ∈ recentPredictionsOf w4Sleep [] [] [] ∧
    (Expl.lowSleep 0).dateOf ∈ (sleepMapOf (recentOf w4Sleep)).map Prod.fst := by
  have hmem : Expl.lowSleep 0 ∈ recentPredictionsOf w4Sleep [] [] [] := by
    have hlist : recentPredictionsOf w4Sleep [] [] [] = [Expl.lowSleep 0] := by
      norm_num [recentPredictionsOf, predictionsOf, explFor, recentOf,
        List.filterMap_cons, w4Sleep, sleepMapOf, dietMapOf, menstrualMapOf,
        symptomMapOf, upsert, mlookup]
    rw [hlist]
    simp
  exact ⟨hmem, C4_recent_windows_and_sleep_gating.2.2.2.2.2 w4Sleep [] [] [] _ hmem⟩

/-! ## Flareup predictor gating and probability (claims C7, C2) -/

/-- C7: with symptom data present, the predictor reports the
no-recent-predictions message exactly when the explanation list is empty,
reports the no-triggers message exactly when explanations exist but the
trigger total is zero, and returns a numeric probability exactly when the
explanation list is non-empty and the trigger total is positive. -/
theorem C7_message_gating (sleepData : List Sleep) (dietData : List Diet)
    (menstrualData : List Menstrual) (symptomsData : List Symptom)
    (h : symptomsData ≠ []) :
    ((predictFlareups sleepData dietData menstrualData symptomsData =
        FlareupOutcome.noPredictions) ↔
      recentPredictionsOf sleepData dietData menstrualData symptomsData = []) ∧
    ((predictFlareups sleepData dietData menstrualData symptomsData =
        FlareupOutcome.noTriggers) ↔
      (recentPredictionsOf sleepData dietData menstrualData symptomsData ≠ [] ∧
        totalTriggersOf sleepData dietData menstrualData symptomsData = 0)) ∧
    ((∃ p preds, predictFlareups sleepData dietData menstrualData symptomsData =
        FlareupOutcome.result p preds) ↔
      (recentPredictionsOf sleepData dietData menstrualData symptomsData ≠ [] ∧
        totalTriggersOf sleepData dietData menstrualData symptomsData ≠ 0)) := by
  have hne : ((symptomsData.map severityOf).isEmpty) = false := by
    cases symptomsData with
    | nil => exact absurd rfl h
    | cons a t => rfl
  by_cases hp : recentPredictionsOf sleepData dietData menstrualData symptomsData = []
  · simp [predictFlareups, hne, hp]
  · by_cases ht : totalTriggersOf sleepData dietData menstrualData symptomsData = 0
    · simp [predictFlareups, hne, hp, ht, List.isEmpty_iff]
    · simp [predictFlareups, hne, hp, ht, List.isEmpty_iff]

theorem round2dp_bounds {x : ℚ} (h0 : 0 ≤ x) (h100 : x ≤ 100) :
    0 ≤ round2dp x ∧ round2dp x ≤ 100 := by
  unfold round2dp goRound
  rw [if_pos (by positivity : (0 : ℚ) ≤ x * 100)]
  constructor
  · apply div_nonneg _ (by norm_num)
    have hf : (0 : Int) ≤ ⌊x * 100 + 1 / 2⌋ := Int.floor_nonneg.2 (by linarith)
    exact_mod_cast hf
  · rw [div_le_iff₀ (by norm_num : (0 : ℚ) < 100)]
    have h1 : ((⌊x * 100 + 1 / 2⌋ : Int) : ℚ) ≤ x * 100 + 1 / 2 := Int.floor_le _
    have h3 : (⌊x * 100 + 1 / 2⌋ : Int) < 10001 := by
      have : ((⌊x * 100 + 1 / 2⌋ : Int) : ℚ) < 10001 := by linarith
      exact_mod_cast this
    have h4 : (⌊x * 100 + 1 / 2⌋ : Int) ≤ 10000 := by omega
    calc ((⌊x * 100 + 1 / 2⌋ : Int) : ℚ) ≤ 10000 := by exact_mod_cast h4
      _ = 100 * 100 := by norm_num

/-- C2: whenever the flareup predictor returns a numeric probability, it
equals `min(total_triggers / count(explanations), 1.0) * 100` rounded to
2 decimal places, and lies in `[0, 100]`. -/
theorem C2_probability_formula_and_bounds (sleepData : List Sleep)
    (dietData : List Diet) (menstrualData : List Menstrual)
    (symptomsData : List Symptom) (p : ℚ) (preds : List Expl)
    (h : predictFlareups sleepData dietData menstrualData symptomsData =
      FlareupOutcome.result p preds) :
    p = specProbability
        (totalTriggersOf sleepData dietData menstrualData symptomsData)
        preds.length ∧
    0 ≤ p ∧ p ≤ 100 := by
  simp only [predictFlareups] at h
  split_ifs at h with h1 h2 h3
  obtain ⟨hp, hpreds⟩ := FlareupOutcome.result.inj h
  subst hp
  rw [hpreds]
  have hx0 : (0 : ℚ) ≤
      min ((totalTriggersOf sleepData dietData menstrualData symptomsData : ℚ) /
        (preds.length : ℚ)) 1 * 100 := by
    have hm : (0 : ℚ) ≤
        min ((totalTriggersOf sleepData dietData menstrualData symptomsData : ℚ) /
          (preds.length : ℚ)) 1 :=
      le_min (by positivity) (by norm_num)
    nlinarith
  have hx100 :
      min ((totalTriggersOf sleepData dietData menstrualData symptomsData : ℚ) /
        (preds.length : ℚ)) 1 * 100 ≤ 100 := by
    have hm := min_le_right
      ((totalTriggersOf sleepData dietData menstrualData symptomsData : ℚ) /
        (preds.length : ℚ)) 1
    nlinarith
  exact ⟨rfl, (round2dp_bounds hx0 hx100).1, (round2dp_bounds hx0 hx100).2⟩

theorem stdDevOf_nonneg (l : List ℚ) : 0 ≤ stdDevOf l := by
  unfold stdDevOf
  split_ifs
  · exact Real.sqrt_nonneg _
  · exact le_refl 0

theorem wSorted : sortByDate (scoredDaysOf wSymptoms) =
    [⟨0, 2⟩, ⟨1, 2⟩, ⟨2, 2⟩, ⟨3, 2⟩, ⟨4, 2⟩, ⟨5, 7⟩] := by
  norm_num [sortByDate, insertSorted, scoredDaysOf, severityOf, symAt, wSymptoms]

theorem wMeanDiff : listMean (symptomDiffs wSymptoms) = 1 := by
  norm_num [symptomDiffs, diffsOf, sortByDate, insertSorted, scoredDaysOf,
    severityOf, symAt, wSymptoms, listMean, qsum]

theorem wVarDiff : varDiff (symptomDiffs wSymptoms) = 4 := by
  norm_num [symptomDiffs, diffsOf, sortByDate, insertSorted, scoredDaysOf,
    severityOf, symAt, wSymptoms, varDiff, listMean, qsum, sqDevSum]

theorem wThreshold : thresholdOf wSymptoms = 3 := by
  unfold thresholdOf thresholdOfDiffs stdDiffOf
  rw [wMeanDiff, wVarDiff]
  rw [show ((4 : ℚ) : ℝ) = 2 ^ 2 by norm_num,
    Real.sqrt_sq (by norm_num : (0 : ℝ) ≤ 2)]
  norm_num

theorem wSpikes : spikeDaysOf wSymptoms = [(5, 7)] := by
  unfold spikeDaysOf
  rw [wThreshold, wSorted]
  norm_num [spikePass, upsert]


theorem wTotal : totalTriggersOf wSleep [] [] wSymptoms = 1 := by
  unfold totalTriggersOf
  rw [wSpikes]
  norm_num [correlate, applySpike, spikeSleepStep, spikeDietStep,
    spikeMenstrualStep, sleepMapOf, dietMapOf, menstrualMapOf, wSleep,
    upsert, mlookup, Triggers.total, Triggers.init, bump, appendAt]

theorem wMean : listMean (wSymptoms.map severityOf) = 17 / 6 := by
  norm_num [wSymptoms, severityOf, symAt, listMean, qsum]

theorem wSleepWindow : sleepMapOf (recentOf wSleep) =
    [(4, (⟨4, 5, 0, "", ""⟩ : Sleep))] := by
  norm_num [sleepMapOf, recentOf, List.filterMap_cons, wSleep, upsert]

theorem wSymWindow : symptomMapOf (recentOf wSymptoms) =
    [(3, (⟨3, 2, 2, 2, ""⟩ : Symptom)), (4, (⟨4, 2, 2, 2, ""⟩ : Symptom)),
      (5, (⟨5, 7, 7, 7, ""⟩ : Symptom))] := by
  decide

theorem wHighSevLe :
    ((severityOf (⟨4, 2, 2, 2, ""⟩ : Symptom) : ℚ) : ℝ) ≤
      ((listMean (List.map severityOf wSymptoms) : ℚ) : ℝ) +
        stdDevOf (List.map severityOf wSymptoms) := by
  have hsev : severityOf (⟨4, 2, 2, 2, ""⟩ : Symptom) = 2 := by
    norm_num [severityOf]
  have hsd := stdDevOf_nonneg (List.map severityOf wSymptoms)
  rw [hsev, wMean]
  push_cast
  linarith

theorem wPreds : recentPredictionsOf wSleep [] [] wSymptoms =
    [Expl.lowSleep 4] := by
  unfold recentPredictionsOf predictionsOf
  rw [wSleepWindow, wSymWindow]
  simp only [List.map_cons, List.map_nil, List.flatMap_cons, List.flatMap_nil,
    List.append_nil]
  unfold explFor
  norm_num [mlookup, dietMapOf, menstrualMapOf, recentOf, List.filterMap_cons]
  exact wHighSevLe

theorem wFlareup : predictFlareups wSleep [] [] wSymptoms =
    FlareupOutcome.result 100 [Expl.lowSleep 4] := by
  unfold predictFlareups
  rw [wPreds, wTotal]
  norm_num [round2dp, goRound]
  exact fun h => absurd h (by simp [wSymptoms])

/-- Witness for C2 at the six-day input with one short-sleep antecedent:
the predictor returns probability 100. -/
theorem C2_probability_formula_and_bounds_witness :
    (100 : ℚ) = specProbability (totalTriggersOf wSleep [] [] wSymptoms)
        ([Expl.lowSleep 4] : List Expl).length ∧
    (0 : ℚ) ≤ 100 ∧ (100 : ℚ) ≤ 100 :=
  C2_probability_formula_and_bounds wSleep [] [] wSymptoms 100
    [Expl.lowSleep 4] wFlareup

/-- Witness for C7 at a concrete singleton symptom collection. -/
theorem C7_message_gating_witness :
    ((predictFlareups [] [] [] [symAt 0 2] = FlareupOutcome.noPredictions) ↔
      recentPredictionsOf [] [] [] [symAt 0 2] = []) ∧
    ((predictFlareups [] [] [] [symAt 0 2] = FlareupOutcome.noTriggers) ↔
      (recentPredictionsOf [] [] [] [symAt 0 2] ≠ [] ∧
        totalTriggersOf [] [] [] [symAt 0 2] = 0)) ∧
    ((∃ p preds, predictFlareups [] [] [] [symAt 0 2] =
        FlareupOutcome.result p preds) ↔
      (recentPredictionsOf [] [] [] [symAt 0 2] ≠ [] ∧
        totalTriggersOf [] [] [] [symAt 0 2] ≠ 0)) :=
  C7_message_gating [] [] [] [symAt 0 2] (by simp)

/-- C9: in the `src/main.go` variant of `/insert_diet`, every accepted
request persists the `DATABASE_URL` string as the Notes value, and the
submitted notes field has no effect on the handler's output. -/
theorem C9_insert_diet_notes_from_env (parse : String → Option Int)
    (dbURL : String) (req : DietRequest) (p : InsertDietParams)
    (h : insertDietMain parse dbURL req = some p) :
    p.notes = dbURL ∧
    ∀ n : String, insertDietMain parse dbURL { req with notes := n } =
      insertDietMain parse dbURL req := by
  refine ⟨?_, fun n => rfl⟩
  unfold insertDietMain at h
  cases hq : parse req.date with
  | none =>
      rw [hq] at h
      exact absurd h (by simp)
  | some d =>
      rw [hq] at h
      have hp := Option.some.inj h
      rw [← hp]

/-- Witness for C9 at a concrete request. -/
theorem C9_insert_diet_notes_from_env_witness :
    ((⟨"lunch", 0, ["rice"], "db-url"⟩ : InsertDietParams).notes = "db-url") ∧
    (∀ n : String, insertDietMain (fun _ => some 0) "db-url"
        (⟨"lunch", "2025-01-01T00:00:00Z", ["rice"], n⟩ : DietRequest) =
      insertDietMain (fun _ => some 0) "db-url"
        (⟨"lunch", "2025-01-01T00:00:00Z", ["rice"], "user notes"⟩ : DietRequest)) :=
  C9_insert_diet_notes_from_env (fun _ => some 0) "db-url"
    ⟨"lunch", "2025-01-01T00:00:00Z", ["rice"], "user notes"⟩
    ⟨"lunch", 0, ["rice"], "db-url"⟩ rfl

end Endocare
